import Mathlib

/-!
Shallow embedding of the validation-and-transform engine of the
kitchenartsandletters/shopify-reports repository:

* the exclusion filter        — src/configs/exclusions.py
* the rule validator and the tag helpers — src/shared/validation.py
* the issue-to-correction-row mapper — src/shared/csv_mapper.py
* the row assembly of the import-file generator — src/shared/csv_generator.py

Conventions of the embedding.  The Python code works on nested dicts with
defensive `.get` access; those become structures whose fields are `Option`
(`none` = key absent or JSON null), and `dict.get(k, d)` becomes `x.getD d`.
Python exceptions that can escape the engine (`KeyError` from
`product['title']`, `ValueError` from `float(...)`) are embedded with
`Except String`.  Python `str` is `String` (`len` counts code points on both
sides); `str.strip()` is `pyStrip` and `str.startswith` is `pyStartsWith`
(ASCII; the catalog never feeds exotic Unicode whitespace here).  A Python dict literal plus item
assignment becomes an association list updated by `pyDictSet`, which mirrors
dict semantics: assignment to a present key replaces the value in place,
assignment to a fresh key appends.
-/

set_option maxRecDepth 8000

/-- One catalog image (GraphQL `images.edges[*].node`). -/
structure Image where
  id : Option String
  altText : Option String
  originalSrc : Option String
deriving DecidableEq

/-- The fulfillment location of a variant's first inventory level
(`inventoryItem.inventoryLevels.edges[0].node.location`). -/
structure Location where
  name : Option String
  isFulfillmentService : Option Bool
  fulfillsOnlineOrders : Option Bool
  shipsInventory : Option Bool
deriving DecidableEq

/-- One product variant (GraphQL `variants.edges[*].node`). -/
structure Variant where
  id : Option String
  sku : Option String
  barcode : Option String
  price : Option String
  taxable : Option Bool
  inventoryLevels : List Location
deriving DecidableEq

/-- One metafield edge node (`nspace` embeds the source key `namespace`,
which is a Lean keyword). -/
structure Metafield where
  nspace : String
  key : String
  value : Option String
deriving DecidableEq

/-- A catalog record, the `product` dict of validation.py.  `none` = the key
is absent; the nested `…edges` lists are flattened to lists of nodes. -/
structure Product where
  id : Option String
  title : Option String
  handle : Option String
  status : Option String
  descriptionHtml : Option String
  images : List Image
  tags : List String
  /-- `priceRangeV2.minVariantPrice.amount` -/
  minVariantPriceAmount : Option String
  /-- collection edge ids; the validator only reads emptiness -/
  collections : List String
  metafields : List Metafield
  variants : List Variant
deriving DecidableEq

/-- validation.py `ValidationConfig` (the `required_*` set fields are never
read by the checks and are omitted).  `min_price` is the float `0.01`. -/
structure ValidationConfig where
  min_images : Nat := 1
  min_description_length : Nat := 100
  min_price : Rat := 1/100
deriving DecidableEq

/-- A value inside `ValidationIssue.details`: the source stores strings,
possibly-None strings, and lists of strings. -/
inductive DVal where
  | s : String → DVal
  | os : Option String → DVal
  | sl : List String → DVal
deriving DecidableEq

/-- validation.py `ValidationIssue`: severity, message, optional details. -/
structure ValidationIssue where
  severity : String
  message : String
  details : Option (List (String × DVal)) := none
deriving DecidableEq

/-- Python truthiness of an optional string: `None` and `""` are falsy. -/
def strFalsy (s : Option String) : Bool := s.getD "" == ""

/-- Python `str.lower()` on the ASCII strings this engine compares
(messages, tags, pattern texts); character-wise case folding. -/
def pyLower (s : String) : String := ⟨s.data.map Char.toLower⟩

/-- Python whitespace for `str.strip()` (the ASCII set; the catalog data
never carries the exotic Unicode spaces Python would also strip). -/
def isSpaceChar (c : Char) : Bool :=
  c == ' ' || c == '\t' || c == '\n' || c == '\r' || c == '\x0b' || c == '\x0c'

/-- Python `str.strip()`: drop leading and trailing whitespace. -/
def pyStrip (s : String) : String :=
  ⟨((s.data.dropWhile isSpaceChar).reverse.dropWhile isSpaceChar).reverse⟩

/-- Python `str.startswith(pre)`: prefix test. -/
def pyStartsWith (s pre : String) : Bool := pre.data.isPrefixOf s.data

/-- ASCII decimal digit, the `\d` of the date regex and the digits accepted
by `int`/`float` parsing as used here. -/
def isDigitChar (c : Char) : Bool := '0' ≤ c && c ≤ '9'

/-- Numeric value of a list of decimal digits, as Python `int` reads the
(all-digit) regex groups. -/
def digitsVal (l : List Char) : Nat :=
  l.foldl (fun a c => 10 * a + (c.toNat - '0'.toNat)) 0

/-- Modelled core of Python `float(s)` on decimal literals: optional
surrounding whitespace, optional sign, digits with an optional fraction and
an optional exponent.  `none` embeds the `ValueError` float raises on
anything else (`inf`/`nan` spellings never reach this code). -/
def pyFloat (s : String) : Option Rat :=
  let l0 := (pyStrip s).data
  let signAndRest : Rat × List Char :=
    match l0 with
    | '+' :: r => (1, r)
    | '-' :: r => (-1, r)
    | r => (1, r)
  let sign := signAndRest.1
  let l := signAndRest.2
  let ip := l.takeWhile isDigitChar
  let l1 := l.dropWhile isDigitChar
  let fracAndRest : List Char × List Char :=
    match l1 with
    | '.' :: r => (r.takeWhile isDigitChar, r.dropWhile isDigitChar)
    | r => ([], r)
  let fp := fracAndRest.1
  let l2 := fracAndRest.2
  if ip.isEmpty && fp.isEmpty then none
  else
    let mant : Rat := sign * ((digitsVal ip : Rat) + (digitsVal fp : Rat) / (10 : Rat) ^ fp.length)
    match l2 with
    | [] => some mant
    | 'e' :: r => pyFloatExp mant r
    | 'E' :: r => pyFloatExp mant r
    | _ => none
where
  /-- exponent part `[+-]?digits` -/
  pyFloatExp (mant : Rat) (r : List Char) : Option Rat :=
    let signAndRest : Int × List Char :=
      match r with
      | '+' :: r2 => (1, r2)
      | '-' :: r2 => (-1, r2)
      | r2 => (1, r2)
    let ed := signAndRest.2.takeWhile isDigitChar
    if ed.isEmpty || !(signAndRest.2.dropWhile isDigitChar).isEmpty then none
    else some (mant * (10 : Rat) ^ (signAndRest.1 * (digitsVal ed : Int)))

/-- Fraction digits of `rem/den` by long division (fuel-bounded).  Used only
to render the configured minimum price inside a message string. -/
def fracDigits : Nat → Nat → Nat → List Char
  | 0, _, _ => []
  | _, 0, _ => []
  | fuel + 1, rem, den =>
    Char.ofNat ('0'.toNat + 10 * rem / den) :: fracDigits fuel (10 * rem % den) den

/-- Decimal rendering of the configuration float for message text.  It
approximates Python's `str(float)` (exact for short decimals such as the
default `0.01`); only one warning message's text depends on it. -/
def floatRepr (q : Rat) : String :=
  let sign := if q < 0 then "-" else ""
  let n := q.num.natAbs
  let d := q.den
  let frac := fracDigits 17 (n % d) d
  sign ++ toString (n / d) ++ "." ++ (if frac.isEmpty then "0" else String.mk frac)

/-! ## validation.py — ProductValidator -/

/-- message of the images-below-minimum warning -/
def msg_found_images (n m : Nat) : String :=
  "Found " ++ (toString n ++ (" images, minimum " ++ (toString m ++ " required")))

/-- `validate_images` (validation.py lines 26-42). -/
def validate_images (cfg : ValidationConfig) (p : Product) : List ValidationIssue :=
  if p.images.isEmpty then
    [⟨"error", "No product images found", none⟩]
  else if p.images.length < cfg.min_images then
    [⟨"warning", msg_found_images p.images.length cfg.min_images, none⟩]
  else []

/-- message of the short-description warning -/
def msg_description_length (n m : Nat) : String :=
  "Description length (" ++ (toString n ++ (") below minimum (" ++ (toString m ++ ")")))

/-- `validate_description` (validation.py lines 44-60). -/
def validate_description (cfg : ValidationConfig) (p : Product) : List ValidationIssue :=
  let description := p.descriptionHtml.getD ""
  if description == "" then
    [⟨"error", "Missing product description", none⟩]
  else if description.length < cfg.min_description_length then
    [⟨"warning", msg_description_length description.length cfg.min_description_length, none⟩]
  else []

/-- message of the price-below-floor error -/
def msg_price_below (amount mp : String) : String :=
  "Price (" ++ (amount ++ (") below minimum (" ++ (mp ++ ")")))

/-- `validate_pricing` (validation.py lines 62-79).  `float(min_price)` can
raise `ValueError`, embedded as `.error`. -/
def validate_pricing (cfg : ValidationConfig) (p : Product) :
    Except String (List ValidationIssue) :=
  let min_price := p.minVariantPriceAmount
  if strFalsy min_price then
    .ok [⟨"error", "No price information found", none⟩]
  else
    match pyFloat (min_price.getD "") with
    | none => .error "ValueError: could not convert string to float"
    | some v =>
      if v < cfg.min_price then
        .ok [⟨"error", msg_price_below (min_price.getD "") (floatRepr cfg.min_price), none⟩]
      else .ok []

/-- `validate_collections` (validation.py lines 81-92). -/
def validate_collections (p : Product) : List ValidationIssue :=
  if p.collections.isEmpty then
    [⟨"error", "Product not assigned to any collection", none⟩]
  else []

/-- `validate_tags` (validation.py lines 94-117). -/
def validate_tags (p : Product) : List ValidationIssue :=
  if p.tags.isEmpty then
    [⟨"error", "Product has no tags assigned", none⟩]
  else if p.tags.length == 1 then
    [⟨"warning", "Product has only one tag", some [("current_tag", .s (p.tags.headD ""))]⟩]
  else if p.tags.length == 2 then
    [⟨"warning", "Product has only two tags", some [("current_tags", .sl p.tags)]⟩]
  else []

/-- The `f"{namespace}.{key}": value` comprehension of `validate_metafields`. -/
def metafieldEntries (p : Product) : List (String × Option String) :=
  p.metafields.map (fun m => (m.nspace ++ "." ++ m.key, m.value))

/-- Lookup in the comprehension-built dict: present iff some edge yields the
key, and the value is the last such edge's (later entries overwrite). -/
def mfGet? (p : Product) (f : String) : Option (Option String) :=
  ((metafieldEntries p).reverse.find? (fun kv => kv.1 == f)).map (·.2)

/-- `required_fields` of `validate_metafields`, in iteration order. -/
def required_fields : List (String × String) :=
  [("custom.author", "Author missing"),
   ("custom.language", "Language missing"),
   ("custom.binding", "Binding missing"),
   ("custom.pub_date", "Publication date missing")]

/-- `validate_metafields` (validation.py lines 119-142): one error per
required key that is absent or has a falsy value, with `field` in details. -/
def validate_metafields (p : Product) : List ValidationIssue :=
  required_fields.flatMap (fun fe =>
    match mfGet? p fe.1 with
    | none => [⟨"error", fe.2, some [("field", .s fe.1)]⟩]
    | some v =>
      if strFalsy v then [⟨"error", fe.2, some [("field", .s fe.1)]⟩] else [])

/-- `validate_barcode` (validation.py lines 144-165). -/
def validate_barcode (p : Product) : List ValidationIssue :=
  if p.variants.isEmpty then
    [⟨"error", "Product has no variants", none⟩]
  else
    p.variants.flatMap (fun v =>
      if strFalsy v.barcode then
        [⟨"error", "Variant missing barcode/ISBN", some [("variant_id", .os v.id)]⟩]
      else [])

/-- `validate_sku` (validation.py lines 167-188). -/
def validate_sku (p : Product) : List ValidationIssue :=
  if p.variants.isEmpty then
    [⟨"error", "Product has no variants", none⟩]
  else
    p.variants.flatMap (fun v =>
      if strFalsy v.sku then
        [⟨"error", "Variant missing SKU", some [("variant_id", .os v.id)]⟩]
      else [])

/-- `validate_variant_settings` (validation.py lines 190-245). -/
def validate_variant_settings (p : Product) : List ValidationIssue :=
  p.variants.flatMap (fun v =>
    let locIssues : List ValidationIssue :=
      match v.inventoryLevels with
      | [] => []
      | loc :: _ =>
        (if loc.isFulfillmentService.getD false then
          [⟨"error", "Variant not set for manual fulfillment",
            some [("variant_id", .os v.id), ("location", .os loc.name)]⟩]
         else [])
        ++ (if !(loc.fulfillsOnlineOrders.getD false) then
          [⟨"error", "Location not set to fulfill online orders",
            some [("variant_id", .os v.id), ("location", .os loc.name)]⟩]
         else [])
        ++ (if !(loc.shipsInventory.getD false) then
          [⟨"error", "Location not set to ship inventory",
            some [("variant_id", .os v.id), ("location", .os loc.name)]⟩]
         else [])
    locIssues ++
      (if !(v.taxable.getD false) then
        [⟨"error", "Variant not set as taxable", some [("variant_id", .os v.id)]⟩]
       else []))

/-- `product['title']`: raises `KeyError` when the key is absent. -/
def pyGetTitle (p : Product) : Except String String :=
  match p.title with
  | some t => .ok t
  | none => .error "KeyError: 'title'"

/-- message of a non-first image with no alt text -/
def msg_image_missing (idx : Nat) : String :=
  "Image " ++ (toString idx ++ " missing alt text")

/-- message of a non-first image with wrong alt text -/
def msg_image_incorrect (idx : Nat) : String :=
  "Image " ++ (toString idx ++ " has incorrect alt text")

/-- The `enumerate(images, 1)` loop of `validate_image_alt_text`.  A raised
`KeyError` aborts the loop and discards issues gathered so far, which the
`Except` propagation reproduces. -/
def validateAltGo (p : Product) : Nat → List Image → Except String (List ValidationIssue)
  | _, [] => .ok []
  | idx, img :: rest =>
    let alt_text := img.altText.getD ""
    if alt_text == "" then
      if idx == 1 then
        match pyGetTitle p with
        | .error e => .error e
        | .ok t =>
          match validateAltGo p (idx + 1) rest with
          | .error e => .error e
          | .ok tail =>
            .ok (⟨"error", "First image missing alt text",
              some [("image_id", .os img.id), ("expected", .s ("Book Cover: " ++ t))]⟩ :: tail)
      else
        match validateAltGo p (idx + 1) rest with
        | .error e => .error e
        | .ok tail =>
          .ok (⟨"error", msg_image_missing idx,
            some [("image_id", .os img.id), ("expected", .s "presentation image")]⟩ :: tail)
    else if idx == 1 then
      match pyGetTitle p with
      | .error e => .error e
      | .ok t =>
        if alt_text == "Book Cover: " ++ t then validateAltGo p (idx + 1) rest
        else
          match validateAltGo p (idx + 1) rest with
          | .error e => .error e
          | .ok tail =>
            .ok (⟨"error", "First image has incorrect alt text",
              some [("image_id", .os img.id), ("current", .s alt_text),
                    ("expected", .s ("Book Cover: " ++ t))]⟩ :: tail)
    else if pyLower alt_text != "presentation image" then
      match validateAltGo p (idx + 1) rest with
      | .error e => .error e
      | .ok tail =>
        .ok (⟨"error", msg_image_incorrect idx,
          some [("image_id", .os img.id), ("current", .s alt_text),
                ("expected", .s "presentation image")]⟩ :: tail)
    else validateAltGo p (idx + 1) rest

/-- `validate_image_alt_text` (validation.py lines 247-297). -/
def validate_image_alt_text (p : Product) : Except String (List ValidationIssue) :=
  validateAltGo p 1 p.images

/-- `validate_publication` (validation.py lines 299-304). -/
def validate_publication (p : Product) : Bool :=
  p.status == some "ACTIVE"

/-- `validate_product` (validation.py lines 306-329): the gate, then the ten
checks in the order of `validation_methods`, accumulating issues.  The
source's extend-loop with possible exceptions is observationally a gate plus
a match on the two fallible checks: an exception discards all accumulated
issues, and `validate_pricing` runs (and can raise) before any check that
follows it, `validate_image_alt_text` last. -/
def validate_product (cfg : ValidationConfig) (p : Product) :
    Except String (List ValidationIssue) :=
  if !validate_publication p then .ok []
  else
    match validate_pricing cfg p with
    | .error e => .error e
    | .ok pricing =>
      match validate_image_alt_text p with
      | .error e => .error e
      | .ok alt =>
        .ok (validate_images cfg p ++ validate_description cfg p ++ pricing
          ++ validate_collections p ++ validate_tags p ++ validate_metafields p
          ++ validate_barcode p ++ validate_sku p ++ validate_variant_settings p
          ++ alt)

/-! ## validation.py — TagValidator -/

/-- `TagValidator.BINDING_TAGS`. -/
def BINDING_TAGS : List (String × String) :=
  [("P", "Paperback"), ("C", "Hardcover"), ("F", "Flexibound"), ("S", "Spiralbound")]

/-- `TagValidator.LANGUAGE_TAGS`. -/
def LANGUAGE_TAGS : List (String × String) :=
  [("Ln_Ar", "Arabic"), ("Ln_Aa", "Catalan"), ("Ln_Ch", "Chinese"),
   ("Ln_Da", "Danish"), ("Ln_Du", "Dutch"), ("Ln_En", "English"),
   ("Ln_Fa", "Faroese"), ("Ln_Fr", "French"), ("Ln_Ge", "German"),
   ("Ln_Kr", "Korean"), ("Ln_It", "Italian"), ("Ln_Ja", "Japanese"),
   ("Ln_Po", "Portuguese"), ("Ln_Sp", "Spanish"), ("Ln_Sw", "Swedish"),
   ("Ln_Ta", "Tagalog"), ("Ln_Th", "Thai")]

/-- `TagValidator.is_binding_tag`: exact dict lookup. -/
def is_binding_tag (tag : String) : Option String :=
  (BINDING_TAGS.find? (fun kv => kv.1 == tag)).map (·.2)

/-- `TagValidator.get_language_name`: exact dict lookup. -/
def get_language_name (tag : String) : Option String :=
  (LANGUAGE_TAGS.find? (fun kv => kv.1 == tag)).map (·.2)

/-- The structural part of `parse_date_tag`'s regex
`^(\d{1,2})-(\d{1,2})-(\d{4})$`: three ASCII-digit groups separated by `-`,
covering the whole tag.  Taking the maximal digit run is equivalent to the
greedy `\d{1,2}` here, because a longer run can never be saved by
backtracking (the following character must be `-` or the end). -/
def parseDateStructure (tag : String) : Option (String × String × String) :=
  let g1 := tag.data.takeWhile isDigitChar
  match tag.data.dropWhile isDigitChar with
  | [] => none
  | c1 :: r2 =>
    if c1 = '-' then
      let g2 := r2.takeWhile isDigitChar
      match r2.dropWhile isDigitChar with
      | [] => none
      | c2 :: r4 =>
        if c2 = '-' then
          let g3 := r4.takeWhile isDigitChar
          if (r4.dropWhile isDigitChar).isEmpty
              && decide (1 ≤ g1.length) && decide (g1.length ≤ 2)
              && decide (1 ≤ g2.length) && decide (g2.length ≤ 2)
              && decide (g3.length = 4)
          then some (⟨g1⟩, ⟨g2⟩, ⟨g3⟩) else none
        else none
    else none

/-- Python `int` on an all-digit regex group. -/
def pyInt (s : String) : Nat := digitsVal s.data

/-- `f"{n:02d}"` for the `int(month)`/`int(day)` values (< 100 here). -/
def pad2 (n : Nat) : String := if n < 10 then "0" ++ toString n else toString n

/-- Gregorian leap year, as `datetime` uses. -/
def isLeapYear (y : Nat) : Bool := y % 4 == 0 && (y % 100 != 0 || y % 400 == 0)

/-- Days per month of the proleptic Gregorian calendar. -/
def daysInMonth (y m : Nat) : Nat :=
  if m == 2 then (if isLeapYear y then 29 else 28)
  else if m == 4 || m == 6 || m == 9 || m == 11 then 30
  else 31

/-- The validation performed by the `datetime(year, month, day)` constructor:
year 1..9999, month 1..12, day 1..days-in-month; anything else raises the
`ValueError` the source catches. -/
def validDatetime (y m d : Nat) : Bool :=
  1 ≤ y && y ≤ 9999 && 1 ≤ m && m ≤ 12 && 1 ≤ d && d ≤ daysInMonth y m

/-- `TagValidator.parse_date_tag` (validation.py lines 362-384): `none`
embeds the `(None, None)` returned when the tag does not match the pattern
or does not name a real calendar date. -/
def parse_date_tag (tag : String) : Option (String × String) :=
  match parseDateStructure tag with
  | none => none
  | some (ms, ds, ys) =>
    let month := pyInt ms
    let day := pyInt ds
    let year := pyInt ys
    if validDatetime year month day then
      some (pad2 month ++ "-" ++ pad2 day ++ "-" ++ ys,
            ys ++ "-" ++ pad2 month ++ "-" ++ pad2 day)
    else none

/-! ## csv_mapper.py — ValidationMapper -/

/-- csv_mapper.py `CSVField`. -/
structure CSVField where
  column_name : String
  value : String := ""
  required : Bool := true
deriving DecidableEq

/-- Python dict item assignment `d[k] = v` on an insertion-ordered dict:
replace in place when the key is present, append otherwise. -/
def pyDictSet {α : Type} (d : List (String × α)) (k : String) (v : α) :
    List (String × α) :=
  if d.any (fun kv => kv.1 == k) then
    d.map (fun kv => if kv.1 == k then (k, v) else kv)
  else d ++ [(k, v)]

/-- Python dict lookup `d.get(k)`. -/
def pyDictGet? {α : Type} (d : List (String × α)) (k : String) : Option α :=
  (d.find? (fun kv => kv.1 == k)).map (·.2)

/-- Python `d.update(e)`: assign every item of `e`, in `e`'s order. -/
def pyDictUpdate {α : Type} (d e : List (String × α)) : List (String × α) :=
  e.foldl (fun a kv => pyDictSet a kv.1 kv.2) d

/-- A correction row: the `csv_fields` dict of the mapper. -/
abbrev Row := List (String × CSVField)

/-- Contiguous-sublist test on character lists. -/
def infixOfChars : List Char → List Char → Bool
  | n, [] => n.isEmpty
  | n, h :: t => n.isPrefixOf (h :: t) || infixOfChars n t

/-- `needle in hay` on Python strings: substring containment. -/
def strContains (hay needle : String) : Bool := infixOfChars needle.data hay.data

/-- The metafield column names of csv_mapper.py. -/
def authorCol : String := "Author (product.metafields.custom.author)"

def languageCol : String := "Language (product.metafields.custom.language)"

def bindingCol : String := "Binding (product.metafields.custom.binding)"

def pubDateCol : String := "Publication Date (product.metafields.custom.pub_date)"

/-- The `details.get('field', '')` read of `map_validation_issues` (the
source only ever stores strings under `'field'`). -/
def detailsFieldOf (details : List (String × DVal)) : String :=
  match pyDictGet? details "field" with
  | some (.s f) => f
  | _ => ""

/-- The per-issue branch chain of `map_validation_issues` (csv_mapper.py
lines 48-100): route by substrings of the human-readable message, and for
the metafield branch additionally by substrings of `details['field']`. -/
def routeIssue (fields : Row) (issue : ValidationIssue) : Row :=
  let message := issue.message
  let details := issue.details.getD []
  if strContains (pyLower message) "description" then
    pyDictSet fields "Body (HTML)" ⟨"Body (HTML)", "", true⟩
  else if strContains (pyLower message) "price" then
    pyDictSet fields "Variant Price" ⟨"Variant Price", "", true⟩
  else if strContains (pyLower message) "tags" then
    pyDictSet fields "Tags" ⟨"Tags", "", true⟩
  else if strContains message "SKU" then
    pyDictSet fields "Variant SKU" ⟨"Variant SKU", "", true⟩
  else if strContains (pyLower message) "barcode" then
    pyDictSet fields "Variant Barcode" ⟨"Variant Barcode", "", true⟩
  else if strContains (pyLower message) "fulfillment" then
    pyDictSet fields "Variant Fulfillment Service" ⟨"Variant Fulfillment Service", "manual", true⟩
  else if strContains (pyLower message) "taxable" then
    pyDictSet fields "Variant Taxable" ⟨"Variant Taxable", "true", true⟩
  else if strContains (pyLower message) "metafield" then
    let field := detailsFieldOf details
    if strContains field "author" then
      pyDictSet fields authorCol ⟨authorCol, "", true⟩
    else if strContains field "language" then
      pyDictSet fields languageCol ⟨languageCol, "", true⟩
    else if strContains field "binding" then
      pyDictSet fields bindingCol ⟨bindingCol, "", true⟩
    else if strContains field "pub_date" then
      pyDictSet fields pubDateCol ⟨pubDateCol, "", true⟩
    else fields
  else fields

/-- `ValidationMapper.map_validation_issues` (csv_mapper.py lines 37-102). -/
def map_validation_issues (p : Product) (issues : List ValidationIssue) : Row :=
  issues.foldl routeIssue
    (pyDictSet (pyDictSet [] "Handle" ⟨"Handle", p.handle.getD "", true⟩)
      "Title" ⟨"Title", p.title.getD "", true⟩)

/-- One image row of `map_image_issues`: the four-entry dict literal, then
the alt-text assignment (position 1 gets the book-cover text, every other
position the presentation text). -/
def imageRow (p : Product) (idx : Nat) (img : Image) : Row :=
  pyDictSet
    [("Handle", ⟨"Handle", p.handle.getD "", true⟩),
     ("Title", ⟨"Title", p.title.getD "", true⟩),
     ("Image Position", ⟨"Image Position", toString idx, true⟩),
     ("Image Src", ⟨"Image Src", img.originalSrc.getD "", true⟩)]
    "Image Alt Text"
    ⟨"Image Alt Text",
     if idx == 1 then "Book Cover: " ++ p.title.getD "" else "presentation image", true⟩

/-- The `enumerate(images, 1)` loop of `map_image_issues`. -/
def imageRowsGo (p : Product) : Nat → List Image → List Row
  | _, [] => []
  | idx, img :: rest => imageRow p idx img :: imageRowsGo p (idx + 1) rest

/-- `ValidationMapper.map_image_issues` (csv_mapper.py lines 104-126). -/
def map_image_issues (p : Product) (images : List Image) : List Row :=
  imageRowsGo p 1 images

/-- `variants.edges[0].node if edges else {}` of `map_product_data`. -/
def firstVariantNode (p : Product) : Option Variant := p.variants.head?

/-- The cleaned SKU of `map_product_data` (csv_mapper.py line 140). -/
def mapped_sku (p : Product) : String :=
  let v := (firstVariantNode p).bind Variant.sku
  if strFalsy v then "" else pyStrip (v.getD "")

/-- The trimmed first-variant barcode (csv_mapper.py line 141), before the
ISBN-shape check. -/
def trimmed_barcode (p : Product) : String :=
  let v := (firstVariantNode p).bind Variant.barcode
  if strFalsy v then "" else pyStrip (v.getD "")

/-- The barcode after the ISBN-shape check (csv_mapper.py lines 144-145): a
`978`/`979`-prefixed value of length ≠ 13 is cleared. -/
def mapped_barcode (p : Product) : String :=
  let barcode := trimmed_barcode p
  if (pyStartsWith barcode "978" || pyStartsWith barcode "979") && barcode.length != 13
  then "" else barcode

/-- The loop state of `map_product_data`'s tag pass: `transformed_tags`,
the `metafields` dict, and the `languages` list. -/
structure TagState where
  transformed_tags : List String
  metafields : List (String × String)
  languages : List String
deriving DecidableEq

/-- One iteration of the tag loop (csv_mapper.py lines 148-170). -/
def processTag (st : TagState) (tag : String) : TagState :=
  match parse_date_tag tag with
  | some dp =>
    { st with transformed_tags := st.transformed_tags ++ [dp.1],
              metafields := pyDictSet st.metafields pubDateCol dp.2 }
  | none =>
    match is_binding_tag tag with
    | some binding =>
      { st with metafields := pyDictSet st.metafields bindingCol binding,
                transformed_tags := st.transformed_tags ++ [tag] }
    | none =>
      match get_language_name tag with
      | some language =>
        { st with languages := st.languages ++ [language],
                  transformed_tags := st.transformed_tags ++ [tag] }
      | none => { st with transformed_tags := st.transformed_tags ++ [tag] }

/-- The state after `map_product_data`'s tag loop (csv_mapper.py lines
134-170), starting from empty `transformed_tags` / `metafields` /
`languages`. -/
def tagLoopState (p : Product) : TagState :=
  p.tags.foldl processTag ⟨[], [], []⟩

/-- The `metafields` dict after the tag loop plus the language-list and
author-from-SKU assignments (csv_mapper.py lines 172-179). -/
def productMetafields (p : Product) : List (String × String) :=
  let st := tagLoopState p
  let mf1 :=
    if st.languages.isEmpty then st.metafields
    else pyDictSet st.metafields languageCol
      ("[" ++ String.intercalate ", " (st.languages.map (fun l => "\"" ++ l ++ "\"")) ++ "]")
  if mapped_sku p == "" then mf1 else pyDictSet mf1 authorCol (mapped_sku p)

/-- The `csv_fields` dict literal of `map_product_data` (csv_mapper.py lines
182-191). -/
def productBaseFields (p : Product) : Row :=
  [("Handle", ⟨"Handle", p.handle.getD "", true⟩),
   ("Title", ⟨"Title", p.title.getD "", true⟩),
   ("Body (HTML)", ⟨"Body (HTML)", p.descriptionHtml.getD "", true⟩),
   ("Tags", ⟨"Tags", String.intercalate ", " (tagLoopState p).transformed_tags, true⟩),
   ("Variant SKU", ⟨"Variant SKU", mapped_sku p, true⟩),
   ("Variant Barcode", ⟨"Variant Barcode", mapped_barcode p, true⟩),
   ("Variant Price", ⟨"Variant Price", ((firstVariantNode p).bind Variant.price).getD "", true⟩),
   ("Variant Fulfillment Service", ⟨"Variant Fulfillment Service", "manual", true⟩)]

/-- `ValidationMapper.map_product_data` (csv_mapper.py lines 128-197): the
base dict literal, then `csv_fields[key] = CSVField(key, str(value))` for
each metafield in insertion order. -/
def map_product_data (p : Product) : Row :=
  (productMetafields p).foldl
    (fun acc kv => pyDictSet acc kv.1 ⟨kv.1, kv.2, true⟩) (productBaseFields p)

/-! ## csv_generator.py — generate_import_csv -/

/-- The row-assembly loop of `generate_import_csv` (csv_generator.py lines
13-26); the directory creation, the timestamped filename and the CSV writing
are I/O outside the embedding.  For each flagged product: one merged
(product-data updated by image-row) row per image, and nothing else. -/
def generate_import_rows (products : List Product) : List Row :=
  products.flatMap (fun p =>
    (map_image_issues p p.images).map (fun imageRow =>
      pyDictUpdate (map_product_data p) imageRow))

/-! ## configs/exclusions.py — ExclusionList -/

/-- One entry of `partial_patterns`: pattern text plus match kind
(`starts_with` or `contains`). -/
structure PatternRule where
  pattern : String
  type : String
deriving DecidableEq

/-- `ExclusionList`: the four rule containers. -/
structure ExclusionList where
  exact_titles : List String
  partial_patterns : List PatternRule
  barcodes : List String
  urls : List String
deriving DecidableEq

/-- `_compile_patterns` keeps the rules with a known match kind, in declared
order (an unknown kind is skipped). -/
def title_patterns (E : ExclusionList) : List PatternRule :=
  E.partial_patterns.filter (fun r => r.type == "starts_with" || r.type == "contains")

/-- Python 3.7+ `re.escape` special characters. -/
def reSpecialChars : List Char :=
  ['(', ')', '[', ']', '{', '}', '?', '*', '+', '-', '|', '^', '$', '\\',
   '.', '&', '~', '#', ' ', '\t', '\n', '\r', '\x0b', '\x0c']

/-- `re.escape`: backslash-escape the regex special characters. -/
def reEscape (s : String) : String :=
  ⟨s.data.foldr (fun c acc =>
    if reSpecialChars.contains c then '\\' :: c :: acc else c :: acc) []⟩

/-- `pattern.pattern`, the compiled regex source used verbatim in the
partial-match reason (`^…` for `starts_with`, `.*…​.*` for `contains`). -/
def compiledSource (r : PatternRule) : String :=
  if r.type == "starts_with" then "^" ++ reEscape r.pattern
  else ".*" ++ reEscape r.pattern ++ ".*"

/-- `pattern.search(title)` for the two compiled shapes under
`re.IGNORECASE`: an anchored prefix match or a substring match, both
case-insensitive (lower-casing embeds IGNORECASE for these patterns). -/
def ruleMatches (r : PatternRule) (title : String) : Bool :=
  if r.type == "starts_with" then pyStartsWith (pyLower title) (pyLower r.pattern)
  else strContains (pyLower title) (pyLower r.pattern)

/-- `ExclusionList.should_exclude` (exclusions.py lines 52-93).  The input is
`Option Product` so that the `if not product` guard on a missing record is
representable. -/
def should_exclude (E : ExclusionList) (product : Option Product) :
    Bool × Option String :=
  match product with
  | none => (false, none)
  | some p =>
    let title := p.title.getD ""
    if title == "" then (false, none)
    else if E.exact_titles.contains title then
      (true, some ("Exact title match: " ++ title))
    else
      match (title_patterns E).find? (fun r => ruleMatches r title) with
      | some r => (true, some ("Partial title match: " ++ compiledSource r))
      | none =>
        match p.variants.findSome? (fun v =>
            let barcode := v.barcode.getD ""
            if barcode != "" && E.barcodes.contains barcode then some barcode
            else none) with
        | some barcode => (true, some ("Barcode match: " ++ barcode))
        | none =>
          let handle := p.handle.getD ""
          let url := "https://kitchenartsandletters.com/products/" ++ handle
          if handle != "" && E.urls.contains url then
            (true, some ("URL match: " ++ url))
          else (false, none)

/-- `load_exclusions` (exclusions.py lines 95-97) with the literal rule
containers of `ExclusionList.__init__`. -/
def load_exclusions : ExclusionList :=
  { exact_titles := ["Kitchen Arts & Letters Gift Card"],
    partial_patterns :=
      [⟨"Class:", "starts_with"⟩, ⟨"Gift Card", "contains"⟩,
       ⟨"Limited Edition", "contains"⟩, ⟨"Clean Out", "contains"⟩,
       ⟨"OP:", "starts_with"⟩, ⟨"Talk & Taste", "starts_with"⟩,
       ⟨"Le Journal du Patissier", "starts_with"⟩, ⟨"Cookbook Club", "contains"⟩],
    barcodes := [],
    urls := [] }

/-! ## General lemmas about the embedded primitives -/

/-- Two strings differ when some position inside a prefix of the first
carries a different character than the second string does there. -/
theorem append_ne_of_head (s r t : String) (i : Nat) (hi : i < s.data.length)
    (hne : s.data[i]? ≠ t.data[i]?) : s ++ r ≠ t := by
  intro he
  apply hne
  have hd : (s ++ r).data = t.data := congrArg String.data he
  rw [String.data_append] at hd
  rw [← hd, List.getElem?_append_left hi]

theorem takeWhile_app_sep {q : Char → Bool} {xs r : List Char} {y : Char}
    (hxs : ∀ x ∈ xs, q x = true) (hy : q y = false) :
    (xs ++ y :: r).takeWhile q = xs := by
  induction xs with
  | nil => simp [List.takeWhile_cons, hy]
  | cons a as ih =>
    have ha := hxs a (by simp)
    simp [List.takeWhile_cons, ha, ih (fun x hx => hxs x (by simp [hx]))]

theorem dropWhile_app_sep {q : Char → Bool} {xs r : List Char} {y : Char}
    (hxs : ∀ x ∈ xs, q x = true) (hy : q y = false) :
    (xs ++ y :: r).dropWhile q = y :: r := by
  induction xs with
  | nil => simp [List.dropWhile_cons, hy]
  | cons a as ih =>
    have ha := hxs a (by simp)
    simp [List.dropWhile_cons, ha, ih (fun x hx => hxs x (by simp [hx]))]

theorem takeWhile_of_all {q : Char → Bool} {l : List Char}
    (h : ∀ x ∈ l, q x = true) : l.takeWhile q = l := by
  induction l with
  | nil => rfl
  | cons a as ih =>
    simp [List.takeWhile_cons, h a (by simp), ih (fun x hx => h x (by simp [hx]))]

theorem dropWhile_of_all {q : Char → Bool} {l : List Char}
    (h : ∀ x ∈ l, q x = true) : l.dropWhile q = [] := by
  induction l with
  | nil => rfl
  | cons a as ih =>
    simp [List.dropWhile_cons, h a (by simp), ih (fun x hx => h x (by simp [hx]))]

theorem find?_append_none {α : Type} {l1 : List α} (l2 : List α) {q : α → Bool}
    (h : l1.find? q = none) : (l1 ++ l2).find? q = l2.find? q := by
  induction l1 with
  | nil => rfl
  | cons a l ih =>
    rcases List.find?_eq_none.mp h a (by simp) with ha
    have htail : l.find? q = none :=
      List.find?_eq_none.mpr (fun x hx => List.find?_eq_none.mp h x (by simp [hx]))
    simp only [List.cons_append]
    rw [List.find?_cons_of_neg _ ha, ih htail]

theorem find?_append_some {α : Type} {l1 : List α} (l2 : List α) {q : α → Bool} {a : α}
    (h : l1.find? q = some a) : (l1 ++ l2).find? q = some a := by
  induction l1 with
  | nil => simp at h
  | cons b l ih =>
    by_cases hb : q b
    · rw [List.find?_cons_of_pos _ hb] at h
      simp only [List.cons_append]
      rw [List.find?_cons_of_pos _ hb]
      exact h
    · rw [List.find?_cons_of_neg _ hb] at h
      simp only [List.cons_append]
      rw [List.find?_cons_of_neg _ hb]
      exact ih h

theorem find?_replace_self {α : Type} (d : List (String × α)) (k : String) (v : α) :
    (d.map (fun kv => if kv.1 == k then (k, v) else kv)).find? (fun kv => kv.1 == k)
      = if d.any (fun kv => kv.1 == k) then some (k, v) else none := by
  induction d with
  | nil => rfl
  | cons a d ih =>
    by_cases h : a.1 == k
    · simp only [List.map_cons, if_pos h, List.any_cons, h, Bool.true_or, if_pos]
      exact List.find?_cons_of_pos _ (by simp)
    · simp only [List.map_cons, if_neg h, List.any_cons, h, Bool.false_or]
      rw [List.find?_cons_of_neg _ (by simp [h]), ih]

theorem find?_replace_ne {α : Type} (d : List (String × α)) {k k' : String} (v : α)
    (h : k' ≠ k) :
    (d.map (fun kv => if kv.1 == k then (k, v) else kv)).find? (fun kv => kv.1 == k')
      = d.find? (fun kv => kv.1 == k') := by
  induction d with
  | nil => rfl
  | cons a d ih =>
    by_cases ha : a.1 == k
    · have ha' : a.1 = k := by exact beq_iff_eq.mp ha
      have h1 : (k == k') = false := beq_eq_false_iff_ne.mpr (fun e => h e.symm)
      have h2 : (a.1 == k') = false := beq_eq_false_iff_ne.mpr (by rw [ha']; exact fun e => h e.symm)
      simp only [List.map_cons, if_pos ha]
      rw [List.find?_cons_of_neg _ (by simp [h1]), List.find?_cons_of_neg _ (by simp [h2]), ih]
    · simp only [List.map_cons, if_neg ha]
      by_cases hk' : a.1 == k'
      · rw [List.find?_cons_of_pos _ (by simp [hk']), List.find?_cons_of_pos _ (by simp [hk'])]
      · rw [List.find?_cons_of_neg _ (by simp [hk']), List.find?_cons_of_neg _ (by simp [hk']), ih]

/-- Looking up the key just assigned returns the assigned value. -/
theorem pyDictGet?_set_self {α : Type} (d : List (String × α)) (k : String) (v : α) :
    pyDictGet? (pyDictSet d k v) k = some v := by
  unfold pyDictSet pyDictGet?
  by_cases hany : d.any (fun kv => kv.1 == k)
  · rw [if_pos hany, find?_replace_self, if_pos hany]
    rfl
  · rw [if_neg hany]
    have hnone : d.find? (fun kv => kv.1 == k) = none :=
      List.find?_eq_none.mpr (fun x hx hqx => hany (List.any_of_mem hx hqx))
    rw [find?_append_none _ hnone, List.find?_cons_of_pos _ (by simp)]
    rfl

/-- Assigning one key leaves every other key's lookup unchanged. -/
theorem pyDictGet?_set_ne {α : Type} (d : List (String × α)) {k k' : String} (v : α)
    (h : k' ≠ k) : pyDictGet? (pyDictSet d k v) k' = pyDictGet? d k' := by
  unfold pyDictSet pyDictGet?
  by_cases hany : d.any (fun kv => kv.1 == k)
  · rw [if_pos hany, find?_replace_ne _ _ h]
  · rw [if_neg hany]
    cases hf : d.find? (fun kv => kv.1 == k') with
    | none =>
      rw [find?_append_none _ hf,
        List.find?_cons_of_neg _ (by simp [beq_eq_false_iff_ne.mpr (fun e => h e.symm)])]
      rfl
    | some a => rw [find?_append_some _ hf]

/-- An entry of the dict after an assignment either carries the assigned key
or was already present. -/
theorem mem_pyDictSet {α : Type} {d : List (String × α)} {k : String} {v : α}
    {kv : String × α} (h : kv ∈ pyDictSet d k v) : kv.1 = k ∨ kv ∈ d := by
  unfold pyDictSet at h
  split at h
  · rcases List.mem_map.mp h with ⟨a, ha, hae⟩
    by_cases hk : a.1 == k
    · left; rw [if_pos hk] at hae; rw [← hae]
    · right; rw [if_neg hk] at hae; rw [← hae]; exact ha
  · rcases List.mem_append.mp h with h | h
    · right; exact h
    · left; simp at h; rw [h]

/-! ## Concrete records used by closed evaluations and witnesses -/

/-- An active record with a title and a handle and nothing else. -/
def sampleProduct : Product :=
  { id := none, title := some "T", handle := some "h", status := some "ACTIVE",
    descriptionHtml := none, images := [], tags := [],
    minVariantPriceAmount := none, collections := [], metafields := [],
    variants := [] }

/-- An active record with one alt-text-less image and no `title` key. -/
def titlelessProduct : Product :=
  { id := none, title := none, handle := some "h", status := some "ACTIVE",
    descriptionHtml := none, images := [⟨none, none, none⟩], tags := [],
    minVariantPriceAmount := none, collections := [], metafields := [],
    variants := [] }

/-- A record whose only variant carries a trimmed barcode `97812345`:
ISBN-prefixed but 8 characters long. -/
def isbnSampleProduct : Product :=
  { id := none, title := some "T", handle := some "h", status := some "ACTIVE",
    descriptionHtml := none, images := [], tags := [],
    minVariantPriceAmount := some "9.99", collections := [], metafields := [],
    variants := [⟨some "v1", some "SKU1", some " 97812345 ", some "9.99", some true, []⟩] }

/-! ## C10 — the core row reads the first variant only -/

/-- C10: the core correction row is built from the first variant only —
prepending further variants after the first changes nothing in
`map_product_data`'s output, so the values of every other variant never
appear in any generated row. -/
theorem map_product_data_first_variant_only (p : Product) (v : Variant)
    (rest : List Variant) :
    map_product_data { p with variants := v :: rest }
      = map_product_data { p with variants := [v] } := rfl

/-! ## C9 — ISBN-shaped barcode clearing -/

/-- The four metafield column names. -/
def metafieldColumnNames : List String :=
  [authorCol, languageCol, bindingCol, pubDateCol]

theorem processTag_metafield_keys {st : TagState} {tag : String}
    (h : ∀ kv ∈ st.metafields, kv.1 ∈ metafieldColumnNames) :
    ∀ kv ∈ (processTag st tag).metafields, kv.1 ∈ metafieldColumnNames := by
  intro kv hkv
  unfold processTag at hkv
  cases hd : parse_date_tag tag with
  | some dp =>
    rw [hd] at hkv
    dsimp only at hkv
    rcases mem_pyDictSet hkv with h1 | h1
    · rw [h1]; simp [metafieldColumnNames]
    · exact h kv h1
  | none =>
    rw [hd] at hkv
    cases hb : is_binding_tag tag with
    | some binding =>
      rw [hb] at hkv
      dsimp only at hkv
      rcases mem_pyDictSet hkv with h1 | h1
      · rw [h1]; simp [metafieldColumnNames]
      · exact h kv h1
    | none =>
      rw [hb] at hkv
      cases hl : get_language_name tag with
      | some lang => rw [hl] at hkv; exact h kv hkv
      | none => rw [hl] at hkv; exact h kv hkv

theorem tagLoop_metafield_keys (p : Product) :
    ∀ kv ∈ (tagLoopState p).metafields, kv.1 ∈ metafieldColumnNames := by
  have key : ∀ (tags : List String) (st : TagState),
      (∀ kv ∈ st.metafields, kv.1 ∈ metafieldColumnNames) →
      ∀ kv ∈ (tags.foldl processTag st).metafields, kv.1 ∈ metafieldColumnNames := by
    intro tags
    induction tags with
    | nil => intro st h; exact h
    | cons t ts ih => intro st h; exact ih _ (processTag_metafield_keys h)
  exact key p.tags ⟨[], [], []⟩ (by simp)

theorem productMetafields_keys (p : Product) :
    ∀ kv ∈ productMetafields p, kv.1 ∈ metafieldColumnNames := by
  have hst := tagLoop_metafield_keys p
  have hmf1 : ∀ kv ∈ (if (tagLoopState p).languages.isEmpty
      then (tagLoopState p).metafields
      else pyDictSet (tagLoopState p).metafields languageCol
        ("[" ++ String.intercalate ", "
            ((tagLoopState p).languages.map (fun l => "\"" ++ l ++ "\"")) ++ "]")),
      kv.1 ∈ metafieldColumnNames := by
    intro kv hkv
    split at hkv
    · exact hst kv hkv
    · rcases mem_pyDictSet hkv with h1 | h1
      · rw [h1]; simp [metafieldColumnNames]
      · exact hst kv h1
  intro kv hkv
  simp only [productMetafields] at hkv
  split at hkv
  · exact hmf1 kv hkv
  · rcases mem_pyDictSet hkv with h1 | h1
    · rw [h1]; simp [metafieldColumnNames]
    · exact hmf1 kv h1

theorem pyDictGet?_metafields_foldl (l : List (String × String)) (base : Row)
    {k : String} (h : ∀ kv ∈ l, kv.1 ≠ k) :
    pyDictGet? (l.foldl (fun acc kv => pyDictSet acc kv.1 ⟨kv.1, kv.2, true⟩) base) k
      = pyDictGet? base k := by
  induction l generalizing base with
  | nil => rfl
  | cons a l ih =>
    rw [List.foldl_cons, ih _ (fun kv hkv => h kv (by simp [hkv]))]
    exact pyDictGet?_set_ne base _ (fun e => (h a (by simp)) e.symm)

/-- C9: for a record whose trimmed first-variant barcode is ISBN-prefixed
(`978`/`979`), the correction row's barcode column keeps the barcode exactly
when it is 13 characters long and is cleared otherwise. -/
theorem mapper_discards_malformed_isbn (p : Product) (b : String)
    (hb : trimmed_barcode p = b)
    (hpre : pyStartsWith b "978" = true ∨ pyStartsWith b "979" = true) :
    pyDictGet? (map_product_data p) "Variant Barcode"
      = some ⟨"Variant Barcode", if b.length == 13 then b else "", true⟩ := by
  have hkeys : ∀ kv ∈ productMetafields p, kv.1 ≠ "Variant Barcode" := by
    intro kv hkv
    have hmem := productMetafields_keys p kv hkv
    simp only [metafieldColumnNames, authorCol, languageCol, bindingCol, pubDateCol,
      List.mem_cons, List.not_mem_nil, or_false] at hmem
    rcases hmem with h1 | h1 | h1 | h1 <;> rw [h1] <;> decide
  unfold map_product_data
  rw [pyDictGet?_metafields_foldl _ _ hkeys]
  have hbase : pyDictGet? (productBaseFields p) "Variant Barcode"
      = some ⟨"Variant Barcode", mapped_barcode p, true⟩ := rfl
  rw [hbase]
  unfold mapped_barcode
  rw [hb]
  rcases hpre with h | h <;>
    cases hc : b.length == 13 <;>
      simp [h, hc, bne]

/-- Witness for C9 at a concrete record: the trimmed barcode `97812345` is
ISBN-prefixed and 8 characters long, so the barcode column is cleared. -/
theorem mapper_discards_malformed_isbn_witness :
    trimmed_barcode isbnSampleProduct = "97812345" ∧
    pyDictGet? (map_product_data isbnSampleProduct) "Variant Barcode"
      = some ⟨"Variant Barcode", if "97812345".length == 13 then "97812345" else "", true⟩ :=
  ⟨rfl, mapper_discards_malformed_isbn isbnSampleProduct "97812345" rfl (Or.inl rfl)⟩

/-! ## C1 — issue routing ignores the metafield details -/

/-- C1 (the code, evaluated at its failing input): feeding the four
missing-metafield errors that `validate_metafields` itself produces for a
record with no metafields into `map_validation_issues` populates no
metafield column at all — the returned row holds only the two standard
columns.  The routing inspects message substrings, and the metafield branch
fires only on messages containing `metafield`, which none of the four
messages (`Author missing`, `Language missing`, `Binding missing`,
`Publication date missing`) does; `details.field` is never reached. -/
theorem metafield_errors_populate_no_columns :
    map_validation_issues sampleProduct (validate_metafields sampleProduct)
      = [("Handle", ⟨"Handle", "h", true⟩), ("Title", ⟨"Title", "T", true⟩)] := rfl

/-! ## C4 — the validator can raise on a well-typed record -/

/-- C4 (the code, evaluated at its failing input): an active record with one
image lacking alt text and no `title` key makes `validate_product` raise
`KeyError` (from `product['title']` inside `validate_image_alt_text`)
instead of returning an issue list. -/
theorem validate_product_raises_keyerror :
    validate_product {} titlelessProduct = .error "KeyError: 'title'" := rfl

/-! ## C2 — rows of the correction import file -/

/-- C2 counterexample: a flagged record with zero images contributes no row
at all to the correction import file — in particular no core row — because
`generate_import_csv` only appends one merged row per image row. -/
theorem imageless_record_yields_no_rows :
    generate_import_rows [sampleProduct] = [] := rfl

/-! ## C6 — empty variant list -/

/-- A second concrete record: active, no variants, rich enough that the full
battery runs to completion. -/
def noVariantsProduct : Product :=
  { id := none, title := some "T2", handle := some "h2", status := some "ACTIVE",
    descriptionHtml := some "d", images := [], tags := ["a", "b", "c"],
    minVariantPriceAmount := none, collections := ["c1"], metafields := [],
    variants := [] }

/-- C6 counterexample: on a concrete active record with an empty variant
list the full validation yields two `Product has no variants` errors (one
from the barcode check, one from the SKU check), not exactly one. -/
theorem empty_variants_two_errors_cex :
    ((validate_product {} noVariantsProduct).toOption.getD []).countP
      (fun i => i.message == "Product has no variants") = 2 := rfl
/-! ## C3 — the publication gate -/

/-- The default `ValidationConfig()` the report entry point constructs. -/
def defaultConfig : ValidationConfig := {}

/-- C3: a record whose status is not `ACTIVE` is never validated —
`validate_product` returns the empty issue list immediately — while for an
active record the result is the accumulated output of the full battery of
checks, in the order of `validation_methods`. -/
theorem inactive_gate_skips_validation (cfg : ValidationConfig) (p : Product) :
    (p.status ≠ some "ACTIVE" → validate_product cfg p = .ok []) ∧
    (p.status = some "ACTIVE" → ∀ pricing alt,
      validate_pricing cfg p = .ok pricing →
      validate_image_alt_text p = .ok alt →
      validate_product cfg p = .ok (validate_images cfg p ++ validate_description cfg p
        ++ pricing ++ validate_collections p ++ validate_tags p ++ validate_metafields p
        ++ validate_barcode p ++ validate_sku p ++ validate_variant_settings p ++ alt)) := by
  constructor
  · intro h
    have hpub : validate_publication p = false := by
      unfold validate_publication
      exact beq_eq_false_iff_ne.mpr h
    simp [validate_product, hpub]
  · intro h pricing alt hp ha
    have hpub : validate_publication p = true := by
      unfold validate_publication
      rw [h]
      exact beq_self_eq_true (some "ACTIVE")
    simp [validate_product, hpub, hp, ha]

/-- An inactive copy of the sample record. -/
def draftProduct : Product := { sampleProduct with status := some "DRAFT" }

/-- Witness for C3: the draft record yields no issues although every check
would fail on it; the active sample record yields the battery's output. -/
theorem inactive_gate_skips_validation_witness :
    validate_product defaultConfig draftProduct = .ok [] ∧
    validate_product defaultConfig sampleProduct
      = .ok (validate_images defaultConfig sampleProduct
        ++ validate_description defaultConfig sampleProduct
        ++ [⟨"error", "No price information found", none⟩]
        ++ validate_collections sampleProduct ++ validate_tags sampleProduct
        ++ validate_metafields sampleProduct ++ validate_barcode sampleProduct
        ++ validate_sku sampleProduct ++ validate_variant_settings sampleProduct
        ++ []) :=
  ⟨(inactive_gate_skips_validation defaultConfig draftProduct).1 (by decide),
   (inactive_gate_skips_validation defaultConfig sampleProduct).2 rfl _ _ rfl rfl⟩

/-! ## C5 — exclusion stage order -/

/-- C5: `should_exclude` tries exact title, then title patterns, then
variant barcodes, then the canonical URL, first match winning: a record
whose (non-empty) title is in the exact set reports the exact-title reason
regardless of the other stages, and a record matching no stage comes back
`(false, none)`. -/
theorem should_exclude_stage_order :
    (∀ (E : ExclusionList) (p : Product),
      p.title.getD "" ≠ "" →
      E.exact_titles.contains (p.title.getD "") = true →
      should_exclude E (some p)
        = (true, some ("Exact title match: " ++ p.title.getD ""))) ∧
    (∀ (E : ExclusionList) (p : Product),
      E.exact_titles.contains (p.title.getD "") = false →
      (∀ r ∈ title_patterns E, ruleMatches r (p.title.getD "") = false) →
      (∀ v ∈ p.variants,
        ¬(v.barcode.getD "" ≠ "" ∧ E.barcodes.contains (v.barcode.getD "") = true)) →
      E.urls.contains
        ("https://kitchenartsandletters.com/products/" ++ p.handle.getD "") = false →
      should_exclude E (some p) = (false, none)) := by
  constructor
  · intro E p h1 h2
    have hbt : (p.title.getD "" == "") = false := beq_eq_false_iff_ne.mpr h1
    have h2m : p.title.getD "" ∈ E.exact_titles := by simpa using h2
    simp [should_exclude, hbt, h2m]
  · intro E p h1 h2 h3 h4
    by_cases ht : p.title.getD "" = ""
    · simp [should_exclude, ht]
    · have hbt : (p.title.getD "" == "") = false := beq_eq_false_iff_ne.mpr ht
      have h1m : p.title.getD "" ∉ E.exact_titles := by simpa using h1
      have h4m : "https://kitchenartsandletters.com/products/" ++ p.handle.getD "" ∉ E.urls := by
        simpa using h4
      have hfind : (title_patterns E).find? (fun r => ruleMatches r (p.title.getD ""))
          = none :=
        List.find?_eq_none.mpr (fun r hr => by simp [h2 r hr])
      have hsome : List.findSome? (fun v =>
          if ¬v.barcode.getD "" = "" ∧ v.barcode.getD "" ∈ E.barcodes
          then some (v.barcode.getD "") else none) p.variants = none := by
        apply List.findSome?_eq_none_iff.mpr
        intro v hv
        rw [if_neg]
        rintro ⟨hne, hmem⟩
        exact h3 v hv ⟨hne, by simpa using hmem⟩
      simp [should_exclude, hbt, h1m, hfind, hsome, h4m]

/-- The shipped exclusion configuration with one barcode rule added, so that
a record can match both stage 1 and stage 3. -/
def barcodeExclusions : ExclusionList :=
  { load_exclusions with barcodes := ["9780000000000"] }

/-- A record matching both the exact-title rule and the barcode rule. -/
def giftCardProduct : Product :=
  { sampleProduct with
    title := some "Kitchen Arts & Letters Gift Card",
    variants := [⟨some "v", none, some "9780000000000", none, none, []⟩] }

/-- A record matching no exclusion stage. -/
def plainProduct : Product := { sampleProduct with title := some "Plain Pastry" }

/-- Witness for C5: the record matching both stage 1 and stage 3 reports the
exact-title reason; the record matching no stage is not excluded. -/
theorem should_exclude_stage_order_witness :
    should_exclude barcodeExclusions (some giftCardProduct)
      = (true, some ("Exact title match: " ++ giftCardProduct.title.getD "")) ∧
    should_exclude barcodeExclusions (some plainProduct) = (false, none) :=
  ⟨should_exclude_stage_order.1 barcodeExclusions giftCardProduct
      (by decide) (by decide),
   should_exclude_stage_order.2 barcodeExclusions plainProduct
      (by decide) (by decide) (by decide) (by decide)⟩

/-- The three messages tied to the variant-presence checks. -/
def noVariantIssueMsgs : List String :=
  ["Product has no variants", "Variant missing barcode/ISBN", "Variant missing SKU"]

theorem validate_images_msgs (cfg : ValidationConfig) (p : Product) :
    ∀ i ∈ validate_images cfg p, i.message ∉ noVariantIssueMsgs := by
  intro i hi
  unfold validate_images at hi
  split at hi
  · simp only [List.mem_singleton] at hi
    rw [hi]; decide
  · split at hi
    · simp only [List.mem_singleton] at hi
      rw [hi]
      show msg_found_images _ _ ∉ noVariantIssueMsgs
      unfold msg_found_images noVariantIssueMsgs
      intro hmem
      simp only [List.mem_cons, List.not_mem_nil, or_false] at hmem
      rcases hmem with h | h | h <;>
        exact append_ne_of_head _ _ _ 0 (by decide) (by decide) h
    · simp at hi

theorem validate_description_msgs (cfg : ValidationConfig) (p : Product) :
    ∀ i ∈ validate_description cfg p, i.message ∉ noVariantIssueMsgs := by
  intro i hi
  unfold validate_description at hi
  dsimp only at hi
  split at hi
  · simp only [List.mem_singleton] at hi
    rw [hi]; decide
  · split at hi
    · simp only [List.mem_singleton] at hi
      rw [hi]
      show msg_description_length _ _ ∉ noVariantIssueMsgs
      unfold msg_description_length noVariantIssueMsgs
      intro hmem
      simp only [List.mem_cons, List.not_mem_nil, or_false] at hmem
      rcases hmem with h | h | h <;>
        exact append_ne_of_head _ _ _ 0 (by decide) (by decide) h
    · simp at hi


theorem validate_pricing_msgs (cfg : ValidationConfig) (p : Product)
    {l : List ValidationIssue} (h : validate_pricing cfg p = .ok l) :
    ∀ i ∈ l, i.message ∉ noVariantIssueMsgs := by
  intro i hi
  unfold validate_pricing at h
  dsimp only at h
  split at h
  · simp only [Except.ok.injEq] at h
    subst h
    simp only [List.mem_singleton] at hi
    rw [hi]; decide
  · split at h
    · simp at h
    · split at h
      · simp only [Except.ok.injEq] at h
        subst h
        simp only [List.mem_singleton] at hi
        rw [hi]
        show msg_price_below _ _ ∉ noVariantIssueMsgs
        unfold msg_price_below noVariantIssueMsgs
        intro hmem
        simp only [List.mem_cons, List.not_mem_nil, or_false] at hmem
        rcases hmem with hx | hx | hx
        · exact append_ne_of_head _ _ _ 2 (by decide) (by decide) hx
        · exact append_ne_of_head _ _ _ 0 (by decide) (by decide) hx
        · exact append_ne_of_head _ _ _ 0 (by decide) (by decide) hx
      · simp only [Except.ok.injEq] at h
        subst h
        simp at hi

theorem validate_collections_msgs (p : Product) :
    ∀ i ∈ validate_collections p, i.message ∉ noVariantIssueMsgs := by
  intro i hi
  unfold validate_collections at hi
  split at hi
  · simp only [List.mem_singleton] at hi
    rw [hi]; decide
  · simp at hi

theorem validate_tags_msgs (p : Product) :
    ∀ i ∈ validate_tags p, i.message ∉ noVariantIssueMsgs := by
  intro i hi
  unfold validate_tags at hi
  split at hi
  · simp only [List.mem_singleton] at hi; rw [hi]; decide
  · split at hi
    · simp only [List.mem_singleton] at hi
      have hm : i.message = "Product has only one tag" := by rw [hi]
      rw [hm]; decide
    · split at hi
      · simp only [List.mem_singleton] at hi
        have hm : i.message = "Product has only two tags" := by rw [hi]
        rw [hm]; decide
      · simp at hi

theorem validate_metafields_msgs (p : Product) :
    ∀ i ∈ validate_metafields p, i.message ∉ noVariantIssueMsgs := by
  intro i hi
  unfold validate_metafields at hi
  rcases List.mem_flatMap.mp hi with ⟨fe, hfe, hin⟩
  have hmsg : i.message = fe.2 := by
    cases hx : mfGet? p fe.1 with
    | none =>
      simp only [hx] at hin
      simp only [List.mem_singleton] at hin
      rw [hin]
    | some v =>
      simp only [hx] at hin
      split at hin
      · simp only [List.mem_singleton] at hin
        rw [hin]
      · simp at hin
  rw [hmsg]
  simp only [required_fields, List.mem_cons, List.not_mem_nil, or_false] at hfe
  rcases hfe with h1 | h1 | h1 | h1 <;> rw [h1] <;> decide

theorem validateAltGo_msgs (p : Product) :
    ∀ (imgs : List Image) (idx : Nat) (l : List ValidationIssue),
      validateAltGo p idx imgs = .ok l → ∀ i ∈ l, i.message ∉ noVariantIssueMsgs := by
  intro imgs
  induction imgs with
  | nil =>
    intro idx l h i hi
    simp only [validateAltGo, Except.ok.injEq] at h
    subst h
    simp at hi
  | cons img rest ih =>
    intro idx l h i hi
    unfold validateAltGo at h
    dsimp only at h
    split at h
    · split at h
      · cases ht : pyGetTitle p with
        | error e => rw [ht] at h; simp at h
        | ok t =>
          rw [ht] at h
          dsimp only at h
          cases hr : validateAltGo p (idx + 1) rest with
          | error e => rw [hr] at h; simp at h
          | ok tail =>
            rw [hr] at h
            dsimp only at h
            simp only [Except.ok.injEq] at h
            subst h
            rcases List.mem_cons.mp hi with hx | hx
            · have hm : i.message = "First image missing alt text" := by rw [hx]
              rw [hm]; decide
            · exact ih (idx + 1) tail hr i hx
      · cases hr : validateAltGo p (idx + 1) rest with
        | error e => rw [hr] at h; simp at h
        | ok tail =>
          rw [hr] at h
          dsimp only at h
          simp only [Except.ok.injEq] at h
          subst h
          rcases List.mem_cons.mp hi with hx | hx
          · have hm : i.message = msg_image_missing idx := by rw [hx]
            rw [hm]
            unfold msg_image_missing noVariantIssueMsgs
            intro hmem
            simp only [List.mem_cons, List.not_mem_nil, or_false] at hmem
            rcases hmem with hz | hz | hz <;>
              exact append_ne_of_head _ _ _ 0 (by decide) (by decide) hz
          · exact ih (idx + 1) tail hr i hx
    · split at h
      · cases ht : pyGetTitle p with
        | error e => rw [ht] at h; simp at h
        | ok t =>
          rw [ht] at h
          dsimp only at h
          split at h
          · exact ih (idx + 1) l h i hi
          · cases hr : validateAltGo p (idx + 1) rest with
            | error e => rw [hr] at h; simp at h
            | ok tail =>
              rw [hr] at h
              dsimp only at h
              simp only [Except.ok.injEq] at h
              subst h
              rcases List.mem_cons.mp hi with hx | hx
              · have hm : i.message = "First image has incorrect alt text" := by rw [hx]
                rw [hm]; decide
              · exact ih (idx + 1) tail hr i hx
      · split at h
        · cases hr : validateAltGo p (idx + 1) rest with
          | error e => rw [hr] at h; simp at h
          | ok tail =>
            rw [hr] at h
            dsimp only at h
            simp only [Except.ok.injEq] at h
            subst h
            rcases List.mem_cons.mp hi with hx | hx
            · have hm : i.message = msg_image_incorrect idx := by rw [hx]
              rw [hm]
              unfold msg_image_incorrect noVariantIssueMsgs
              intro hmem
              simp only [List.mem_cons, List.not_mem_nil, or_false] at hmem
              rcases hmem with hz | hz | hz <;>
                exact append_ne_of_head _ _ _ 0 (by decide) (by decide) hz
            · exact ih (idx + 1) tail hr i hx
        · exact ih (idx + 1) l h i hi

theorem validate_image_alt_text_msgs (p : Product) {l : List ValidationIssue}
    (h : validate_image_alt_text p = .ok l) :
    ∀ i ∈ l, i.message ∉ noVariantIssueMsgs := by
  unfold validate_image_alt_text at h
  exact validateAltGo_msgs p p.images 1 l h

theorem countP_eq_zero_of_msgs {l : List ValidationIssue} {m : String}
    (hm : m ∈ noVariantIssueMsgs)
    (h : ∀ i ∈ l, i.message ∉ noVariantIssueMsgs) :
    l.countP (fun i => i.message == m) = 0 :=
  List.countP_eq_zero.mpr (fun i hi hbeq => h i hi (beq_iff_eq.mp hbeq ▸ hm))

/-- C6 as amended: an active record with an empty variant list yields
exactly two dedicated no-variants errors — the barcode check and the SKU
check each contribute one — and no per-variant barcode or SKU issue. -/
theorem empty_variants_yields_two_errors (cfg : ValidationConfig) (p : Product)
    (issues : List ValidationIssue)
    (hact : p.status = some "ACTIVE") (hvar : p.variants = [])
    (hok : validate_product cfg p = .ok issues) :
    issues.countP (fun i => i.message == "Product has no variants") = 2 ∧
    issues.countP (fun i => i.message == "Variant missing barcode/ISBN") = 0 ∧
    issues.countP (fun i => i.message == "Variant missing SKU") = 0 := by
  have hpub : validate_publication p = true := by
    unfold validate_publication
    rw [hact]
    exact beq_self_eq_true (some "ACTIVE")
  unfold validate_product at hok
  rw [hpub] at hok
  cases hpr : validate_pricing cfg p with
  | error e => rw [hpr] at hok; simp at hok
  | ok pricing =>
    cases hal : validate_image_alt_text p with
    | error e => rw [hpr, hal] at hok; simp at hok
    | ok alt =>
      rw [hpr, hal] at hok
      simp only [Bool.not_true, Bool.false_eq_true, if_false, Except.ok.injEq] at hok
      subst hok
      have hbar : validate_barcode p = [⟨"error", "Product has no variants", none⟩] := by
        simp [validate_barcode, hvar]
      have hsku : validate_sku p = [⟨"error", "Product has no variants", none⟩] := by
        simp [validate_sku, hvar]
      have hset : validate_variant_settings p = [] := by
        simp [validate_variant_settings, hvar]
      refine ⟨?_, ?_, ?_⟩ <;>
      · simp only [List.countP_append, hbar, hsku, hset]
        rw [countP_eq_zero_of_msgs (by decide) (validate_images_msgs cfg p),
            countP_eq_zero_of_msgs (by decide) (validate_description_msgs cfg p),
            countP_eq_zero_of_msgs (by decide) (validate_pricing_msgs cfg p hpr),
            countP_eq_zero_of_msgs (by decide) (validate_collections_msgs p),
            countP_eq_zero_of_msgs (by decide) (validate_tags_msgs p),
            countP_eq_zero_of_msgs (by decide) (validate_metafields_msgs p),
            countP_eq_zero_of_msgs (by decide) (validate_image_alt_text_msgs p hal)]
        decide

/-- Witness for C6 at the concrete no-variants record. -/
theorem empty_variants_yields_two_errors_witness :
    ((validate_product defaultConfig noVariantsProduct).toOption.getD []).countP
        (fun i => i.message == "Product has no variants") = 2 ∧
    ((validate_product defaultConfig noVariantsProduct).toOption.getD []).countP
        (fun i => i.message == "Variant missing barcode/ISBN") = 0 ∧
    ((validate_product defaultConfig noVariantsProduct).toOption.getD []).countP
        (fun i => i.message == "Variant missing SKU") = 0 :=
  empty_variants_yields_two_errors defaultConfig noVariantsProduct
    ((validate_product defaultConfig noVariantsProduct).toOption.getD [])
    rfl rfl rfl

/-! ## C2 (amended) — one merged row per image -/

theorem imageRowsGo_length (p : Product) :
    ∀ (idx : Nat) (imgs : List Image), (imageRowsGo p idx imgs).length = imgs.length := by
  intro idx imgs
  induction imgs generalizing idx with
  | nil => rfl
  | cons i r ih => simp [imageRowsGo, ih]

theorem mem_imageRowsGo {p : Product} {r : Row} :
    ∀ (imgs : List Image) (idx : Nat), r ∈ imageRowsGo p idx imgs →
      ∃ j img, r = imageRow p j img := by
  intro imgs
  induction imgs with
  | nil => intro idx hr; simp [imageRowsGo] at hr
  | cons i rest ih =>
    intro idx hr
    unfold imageRowsGo at hr
    rcases List.mem_cons.mp hr with h | h
    · exact ⟨idx, i, h⟩
    · exact ih (idx + 1) h

theorem imageRow_eq (p : Product) (j : Nat) (img : Image) :
    imageRow p j img
      = [("Handle", ⟨"Handle", p.handle.getD "", true⟩),
         ("Title", ⟨"Title", p.title.getD "", true⟩),
         ("Image Position", ⟨"Image Position", toString j, true⟩),
         ("Image Src", ⟨"Image Src", img.originalSrc.getD "", true⟩),
         ("Image Alt Text", ⟨"Image Alt Text",
            if j == 1 then "Book Cover: " ++ p.title.getD "" else "presentation image",
            true⟩)] := rfl

theorem handle_after_imageRow_update (d : Row) (p : Product) (j : Nat) (img : Image) :
    pyDictGet? (pyDictUpdate d (imageRow p j img)) "Handle"
      = some ⟨"Handle", p.handle.getD "", true⟩ := by
  rw [imageRow_eq]
  unfold pyDictUpdate
  simp only [List.foldl_cons, List.foldl_nil]
  rw [pyDictGet?_set_ne _ _ (by decide), pyDictGet?_set_ne _ _ (by decide),
      pyDictGet?_set_ne _ _ (by decide), pyDictGet?_set_ne _ _ (by decide),
      pyDictGet?_set_self]

/-- C2 as amended: the correction import file holds exactly one row per
image of each flagged record (no separate core row; an imageless record
contributes nothing), and each of those rows is the core product data
overlaid with the image columns — witnessed here through the record's
handle appearing in every generated row. -/
theorem import_rows_one_merged_row_per_image :
    (∀ ps : List Product,
      (generate_import_rows ps).length = (ps.map (fun p => p.images.length)).sum) ∧
    (∀ (p : Product), ∀ row ∈ generate_import_rows [p],
      pyDictGet? row "Handle" = some ⟨"Handle", p.handle.getD "", true⟩) := by
  constructor
  · intro ps
    induction ps with
    | nil => rfl
    | cons p rest ih =>
      simp only [generate_import_rows, List.flatMap_cons, List.length_append,
        List.map_cons, List.sum_cons, List.length_map] at ih ⊢
      rw [ih]
      have := imageRowsGo_length p 1 p.images
      unfold map_image_issues
      rw [this]
  · intro p row hrow
    simp only [generate_import_rows, List.flatMap_cons, List.flatMap_nil,
      List.append_nil] at hrow
    rcases List.mem_map.mp hrow with ⟨ir, hir, hup⟩
    unfold map_image_issues at hir
    rcases mem_imageRowsGo _ _ hir with ⟨j, img, hireq⟩
    rw [← hup, hireq]
    exact handle_after_imageRow_update _ p j img

/-- A copy of the sample record with one image. -/
def imageProduct : Product :=
  { sampleProduct with images := [⟨some "i1", none, some "u1"⟩] }

/-- Witness for C2 at the one-image record. -/
theorem import_rows_one_merged_row_per_image_witness :
    (generate_import_rows [imageProduct]).length
        = ([imageProduct].map (fun p => p.images.length)).sum ∧
    pyDictGet? (pyDictUpdate (map_product_data imageProduct)
        (imageRow imageProduct 1 ⟨some "i1", none, some "u1"⟩)) "Handle"
      = some ⟨"Handle", imageProduct.handle.getD "", true⟩ :=
  ⟨import_rows_one_merged_row_per_image.1 [imageProduct],
   import_rows_one_merged_row_per_image.2 imageProduct _ (by decide)⟩

/-! ## C7 — generated alt text passes the validator -/

/-- The alt text a generated image row carries. -/
def rowAltText (r : Row) : String :=
  ((pyDictGet? r "Image Alt Text").map CSVField.value).getD ""

/-- The record's images with the alt texts that `map_image_issues`
generates for them, position by position. -/
def imagesWithGeneratedAlt (p : Product) : List Image :=
  (p.images.zip (map_image_issues p p.images)).map
    (fun x => { x.1 with altText := some (rowAltText x.2) })

theorem altGo_generated (p p' : Product) (t : String)
    (hp' : pyGetTitle p' = .ok t) (hpt : p.title.getD "" = t) :
    ∀ (imgs : List Image) (idx : Nat),
      validateAltGo p' idx ((imgs.zip (imageRowsGo p idx imgs)).map
        (fun x => { x.1 with altText := some (rowAltText x.2) })) = .ok [] := by
  intro imgs
  induction imgs with
  | nil => intro idx; rfl
  | cons i rest ih =>
    intro idx
    simp only [imageRowsGo, List.zip_cons_cons, List.map_cons]
    have hrow : rowAltText (imageRow p idx i)
        = if idx == 1 then "Book Cover: " ++ p.title.getD "" else "presentation image" := rfl
    unfold validateAltGo
    dsimp only
    by_cases hidx : (idx == 1) = true
    · rw [hpt] at hrow
      have halt : (("Book Cover: " ++ t) == "") = false :=
        beq_eq_false_iff_ne.mpr (append_ne_of_head _ _ _ 0 (by decide) (by decide))
      simp only [hrow, hidx, if_true, Option.getD_some, halt, Bool.false_eq_true,
        if_false, hp', beq_self_eq_true]
      exact ih (idx + 1)
    · simp only [Bool.not_eq_true] at hidx
      have halt : (("presentation image" : String) == "") = false := by decide
      have hlow : (pyLower "presentation image" != "presentation image") = false := by
        decide
      simp only [hrow, hidx, Bool.false_eq_true, if_false, Option.getD_some, halt, hlow]
      exact ih (idx + 1)

/-- C7: for every record carrying a title, the alt texts generated by
`map_image_issues` satisfy the validator's alt-text check — a record whose
images carry exactly the generated texts yields no alt-text issues. -/
theorem generated_alt_text_passes_validator (p : Product) (t : String)
    (h : p.title = some t) :
    validate_image_alt_text { p with images := imagesWithGeneratedAlt p } = .ok [] := by
  unfold validate_image_alt_text
  have hp' : pyGetTitle { p with images := imagesWithGeneratedAlt p } = .ok t := by
    unfold pyGetTitle
    dsimp only
    rw [h]
  have hpt : p.title.getD "" = t := by rw [h]; rfl
  show validateAltGo _ 1 (imagesWithGeneratedAlt p) = .ok []
  unfold imagesWithGeneratedAlt map_image_issues
  exact altGo_generated p _ t hp' hpt p.images 1

/-- A titled record with two images: one with stale alt text, one with
none. -/
def twoImageProduct : Product :=
  { sampleProduct with
    images := [⟨some "i1", some "OLD", some "u1"⟩, ⟨some "i2", none, some "u2"⟩] }

/-- Witness for C7 at the two-image record. -/
theorem generated_alt_text_passes_validator_witness :
    validate_image_alt_text
      { twoImageProduct with images := imagesWithGeneratedAlt twoImageProduct }
      = .ok [] :=
  generated_alt_text_passes_validator twoImageProduct "T" rfl

/-! ## C8 — the date-tag classifier -/

/-- A tag decomposes as `M-D-YYYY` / `MM-DD-YYYY`: three ASCII-digit groups
of lengths 1-2, 1-2 and 4. -/
abbrev dateGroupsWF (ms ds ys : String) : Prop :=
  (∀ c ∈ ms.data, isDigitChar c = true) ∧ 1 ≤ ms.length ∧ ms.length ≤ 2 ∧
  (∀ c ∈ ds.data, isDigitChar c = true) ∧ 1 ≤ ds.length ∧ ds.length ≤ 2 ∧
  (∀ c ∈ ys.data, isDigitChar c = true) ∧ ys.length = 4

/-- Completeness of the structural match: a well-formed group assembly is
recognised and split back into its groups. -/
theorem parseDateStructure_append (ms ds ys : String) (h : dateGroupsWF ms ds ys) :
    parseDateStructure (ms ++ "-" ++ ds ++ "-" ++ ys) = some (ms, ds, ys) := by
  obtain ⟨h1, h2, h3, h4, h5, h6, h7, h8⟩ := h
  unfold parseDateStructure
  have hdata : (ms ++ "-" ++ ds ++ "-" ++ ys).data
      = ms.data ++ '-' :: (ds.data ++ '-' :: ys.data) := by
    rw [String.data_append, String.data_append, String.data_append,
      show ("-" : String).data = ['-'] from rfl]
    simp [List.append_assoc]
  rw [hdata, takeWhile_app_sep h1 (by decide), dropWhile_app_sep h1 (by decide)]
  dsimp only
  rw [if_pos rfl, takeWhile_app_sep h4 (by decide), dropWhile_app_sep h4 (by decide)]
  dsimp only
  rw [if_pos rfl, takeWhile_of_all h7, dropWhile_of_all h7]
  rw [if_pos]
  simp only [List.isEmpty_nil, Bool.true_and, Bool.and_eq_true, decide_eq_true_eq]
  exact ⟨⟨⟨⟨h2, h3⟩, h5⟩, h6⟩, h8⟩

/-- Soundness of the structural match: recognition yields a well-formed
decomposition of the tag. -/
theorem parseDateStructure_sound {tag ms ds ys : String}
    (h : parseDateStructure tag = some (ms, ds, ys)) :
    dateGroupsWF ms ds ys ∧ tag = ms ++ "-" ++ ds ++ "-" ++ ys := by
  unfold parseDateStructure at h
  cases hd1 : tag.data.dropWhile isDigitChar with
  | nil => rw [hd1] at h; simp at h
  | cons c1 r2 =>
    rw [hd1] at h
    dsimp only at h
    split at h
    case isFalse => simp at h
    case isTrue hc1 =>
      cases hd2 : r2.dropWhile isDigitChar with
      | nil => rw [hd2] at h; simp at h
      | cons c2 r4 =>
        rw [hd2] at h
        dsimp only at h
        split at h
        case isFalse => simp at h
        case isTrue hc2 =>
          split at h
          case isFalse => simp at h
          case isTrue hcond =>
            simp only [Option.some.injEq, Prod.mk.injEq] at h
            obtain ⟨hms, hds, hys⟩ := h
            subst hms
            subst hds
            subst hys
            subst hc1
            subst hc2
            simp only [Bool.and_eq_true, decide_eq_true_eq, List.isEmpty_iff] at hcond
            obtain ⟨⟨⟨⟨⟨hemp, hl1⟩, hl2⟩, hl3⟩, hl4⟩, hl5⟩ := hcond
            have e1 : tag.data = tag.data.takeWhile isDigitChar ++ ('-' :: r2) := by
              rw [← hd1, List.takeWhile_append_dropWhile]
            have e2 : r2 = r2.takeWhile isDigitChar ++ ('-' :: r4) := by
              rw [← hd2, List.takeWhile_append_dropWhile]
            have e3 : r4.takeWhile isDigitChar = r4 := by
              conv_rhs => rw [← List.takeWhile_append_dropWhile isDigitChar r4]
              rw [hemp, List.append_nil]
            constructor
            · exact ⟨fun c hc => List.mem_takeWhile_imp hc, hl1, hl2,
                fun c hc => List.mem_takeWhile_imp hc, hl3, hl4,
                fun c hc => List.mem_takeWhile_imp hc, hl5⟩
            · apply String.ext
              rw [String.data_append, String.data_append, String.data_append,
                show ("-" : String).data = ['-'] from rfl]
              dsimp only
              rw [e3]
              conv_lhs => rw [e1, e2]
              simp [List.append_assoc]

/-- C8: a tag of the form `M-D-YYYY`/`MM-DD-YYYY` is classified exactly
when it names a real calendar date, yielding the zero-padded `MM-DD-YYYY`
tag plus the ISO `YYYY-MM-DD` metafield value; a structurally matching tag
with an impossible date, and any tag with no such decomposition, yields no
classification (and the embedding is total, so nothing is raised). -/
theorem date_tag_classifier_canonical :
    (∀ ms ds ys : String, dateGroupsWF ms ds ys →
      parse_date_tag (ms ++ "-" ++ ds ++ "-" ++ ys)
        = (if validDatetime (pyInt ys) (pyInt ms) (pyInt ds)
           then some (pad2 (pyInt ms) ++ "-" ++ pad2 (pyInt ds) ++ "-" ++ ys,
                      ys ++ "-" ++ pad2 (pyInt ms) ++ "-" ++ pad2 (pyInt ds))
           else none)) ∧
    (∀ tag : String,
      (¬ ∃ ms ds ys, dateGroupsWF ms ds ys ∧ tag = ms ++ "-" ++ ds ++ "-" ++ ys) →
      parse_date_tag tag = none) := by
  constructor
  · intro ms ds ys h
    unfold parse_date_tag
    rw [parseDateStructure_append ms ds ys h]
  · intro tag hno
    cases hp : parseDateStructure tag with
    | none => unfold parse_date_tag; rw [hp]
    | some triple =>
      obtain ⟨ms, ds, ys⟩ := triple
      obtain ⟨hwf, heq⟩ := parseDateStructure_sound hp
      exact absurd ⟨ms, ds, ys, hwf, heq⟩ hno

/-- Witness for C8: `2-30-2024` is rejected (no February 30th) and
`1-5-2024` is canonicalised. -/
theorem date_tag_classifier_canonical_witness :
    parse_date_tag ("2" ++ "-" ++ "30" ++ "-" ++ "2024")
      = (if validDatetime (pyInt "2024") (pyInt "2") (pyInt "30")
         then some (pad2 (pyInt "2") ++ "-" ++ pad2 (pyInt "30") ++ "-" ++ "2024",
                    "2024" ++ "-" ++ pad2 (pyInt "2") ++ "-" ++ pad2 (pyInt "30"))
         else none) ∧
    parse_date_tag ("1" ++ "-" ++ "5" ++ "-" ++ "2024")
      = (if validDatetime (pyInt "2024") (pyInt "1") (pyInt "5")
         then some (pad2 (pyInt "1") ++ "-" ++ pad2 (pyInt "5") ++ "-" ++ "2024",
                    "2024" ++ "-" ++ pad2 (pyInt "1") ++ "-" ++ pad2 (pyInt "5"))
         else none) :=
  ⟨date_tag_classifier_canonical.1 "2" "30" "2024" (by decide),
   date_tag_classifier_canonical.1 "1" "5" "2024" (by decide)⟩
